import Mathlib

/-!
# Verification of the SVG text-layout / composition service

A shallow embedding of the repository's `svgService` module (the file
holding `getTextStyleSvg`, `getTextStyleDefs`, `escapeXml`,
`fetchAndEncodeFont`, `getTextElements`, `generateTextOnlySvg`,
`generateCombinedSvg`, `generateEngravingSvg`), together with theorems
about the specified properties.

Modelling conventions:

* JavaScript strings are Lean `String`s (lists of characters); the
  handful of string primitives the code uses (`trim`, `split(/\s+/)`,
  `indexOf`, `substring`, `replace`) are reimplemented below with
  JavaScript's semantics (e.g. `substring` clamps a negative start
  index to 0, string-pattern `replace` replaces only the first
  occurrence).
* JavaScript numbers are modelled as exact rationals (`ℚ`).  The only
  place IEEE semantics is observable for the claims is the division
  `400 / 0 = Infinity` inside `Math.min(400/w, 400/h, 1)`; the model
  makes that explicit by dropping the infinite candidates from the
  minimum (an infinite candidate never wins against the finite `1`).
  Decimal rendering of a number into markup is exact for the values
  exercised by the theorems (integers and finite decimals).
* The asynchronous environment (outcomes of the two network fetches
  and of the `FileReader` base64 encoding step, and the decoded logo
  dimensions) is passed explicitly; each compose operation returns
  `Except String String` — `.error` models a rejected promise.
* The font catalog `TSHIRT_FONTS` lives outside the embedded module
  (it is imported from a constants file); it is passed as an explicit
  read-only lookup list, matching the lookup
  `TSHIRT_FONTS.find(f => f.id === font)?.name || 'Impact'`.
-/

/-- The apostrophe character, named to keep character literals simple. -/
def apos : Char := Char.ofNat 39

/-- Boolean prefix test on character lists. -/
def isPrefOf : List Char → List Char → Bool
  | [], _ => true
  | _ :: _, [] => false
  | a :: as, b :: bs => if a = b then isPrefOf as bs else false

/-- Boolean substring test: does `pat` occur (contiguously) in the list? -/
def containsList (pat : List Char) : List Char → Bool
  | [] => isPrefOf pat []
  | c :: t => isPrefOf pat (c :: t) || containsList pat t

/-- Boolean substring test on strings. -/
def containsSub (s pat : String) : Bool := containsList pat.data s.data

/-- Index of the first occurrence of `pat`, if any. -/
def idxOf? (pat : List Char) : List Char → Option Nat
  | [] => if isPrefOf pat [] then some 0 else none
  | c :: t => if isPrefOf pat (c :: t) then some 0 else (idxOf? pat t).map (· + 1)

/-- Number of (possibly overlapping) occurrences of `pat` at positions
strictly inside the list. -/
def countOcc (pat : List Char) : List Char → Nat
  | [] => 0
  | c :: t => (if isPrefOf pat (c :: t) then 1 else 0) + countOcc pat t

/-- Occurrence count on strings. -/
def countOccStr (s pat : String) : Nat := countOcc pat.data s.data

/-- `String.indexOf` as in JavaScript: first index, or `-1` when absent. -/
def jsIndexOf (s pat : String) : Int :=
  match idxOf? pat.data s.data with
  | some n => (n : Int)
  | none => -1

/-- `String.prototype.substring(start)`: a negative start index is
clamped to `0`, a start past the end yields the empty string. -/
def jsSubstringFrom (s : String) (i : Int) : String :=
  ⟨s.data.drop i.toNat⟩

/-- `String.prototype.replace(pat, repl)` with a string pattern:
replaces only the first occurrence. -/
def jsReplaceFirst (s pat repl : String) : String :=
  match idxOf? pat.data s.data with
  | none => s
  | some n => ⟨s.data.take n ++ repl.data ++ s.data.drop (n + pat.data.length)⟩

/-- Global single-character replacement, modelling `replace(/c/g, repl)`. -/
def jsReplaceChar (s : String) (c : Char) (repl : String) : String :=
  ⟨s.data.flatMap (fun x => if x = c then repl.data else [x])⟩

/-- The JavaScript whitespace class used by both `String.prototype.trim`
and the regexp `\s`. -/
def isJsWs (c : Char) : Bool :=
  c = ' ' || c = '\t' || c = '\n' || c.toNat = 11 || c.toNat = 12 ||
  c = '\r' || c.toNat = 0xA0 || c.toNat = 0x1680 ||
  (0x2000 ≤ c.toNat && c.toNat ≤ 0x200A) || c.toNat = 0x2028 ||
  c.toNat = 0x2029 || c.toNat = 0x202F || c.toNat = 0x205F ||
  c.toNat = 0x3000 || c.toNat = 0xFEFF

/-- `String.prototype.trim`. -/
def jsTrim (s : String) : String :=
  ⟨((s.data.dropWhile isJsWs).reverse.dropWhile isJsWs).reverse⟩

mutual

/-- Worker for `split(/\s+/)`: currently inside a token whose characters
are accumulated (reversed) in `acc`. -/
def splitWsAux : List Char → List Char → List String
  | [], acc => [⟨acc.reverse⟩]
  | c :: rest, acc =>
    if isJsWs c then ⟨acc.reverse⟩ :: splitWsSkip rest
    else splitWsAux rest (c :: acc)

/-- Worker for `split(/\s+/)`: currently inside a whitespace run. -/
def splitWsSkip : List Char → List String
  | [] => [""]
  | c :: rest =>
    if isJsWs c then splitWsSkip rest
    else splitWsAux rest [c]

end

/-- `String.prototype.split(/\s+/)`.  Like JavaScript, a leading
(resp. trailing) whitespace run contributes a leading (resp. trailing)
empty piece, and `"".split(/\s+/)` is `[""]`. -/
def jsSplitWs (s : String) : List String := splitWsAux s.data []

/-- `Array.prototype.join(' ')`. -/
def joinSpace : List String → String
  | [] => ""
  | [x] => x
  | x :: xs => x ++ " " ++ joinSpace xs

/-- `Math.ceil(n / 2)` for a natural operand. -/
def ceilHalf (n : Nat) : Nat := (⌈(n : ℚ) / 2⌉).toNat

/-- Decimal digit characters. -/
def digitChar (d : Nat) : Char :=
  if d = 0 then '0' else if d = 1 then '1' else if d = 2 then '2'
  else if d = 3 then '3' else if d = 4 then '4' else if d = 5 then '5'
  else if d = 6 then '6' else if d = 7 then '7' else if d = 8 then '8'
  else '9'

/-- Decimal digits of a natural number (most significant first), with
explicit fuel so the definition is structural. -/
def natDigitsAux : Nat → Nat → List Char
  | 0, _ => []
  | fuel + 1, n =>
    if n < 10 then [digitChar n]
    else natDigitsAux fuel (n / 10) ++ [digitChar (n % 10)]

/-- Decimal digits of a natural number below `10^30`. -/
def natDigits (n : Nat) : List Char := natDigitsAux 30 n

/-- Fractional decimal digits of `0 ≤ f < 1`, up to `fuel` digits. -/
def fracDigits : Nat → ℚ → List Char
  | 0, _ => []
  | fuel + 1, f =>
    if f = 0 then []
    else digitChar (f * 10).floor.toNat :: fracDigits fuel (f * 10 - (f * 10).floor)

/-- Rendering of a number into markup, as JavaScript template-literal
interpolation does: integers without a decimal point, other values with
a `.` and their decimal expansion (exact for the terminating decimals
that actually occur in the generated documents). -/
def jsNumStr (q : ℚ) : String :=
  if q < 0 then
    "-" ++ ⟨natDigits (-q).floor.toNat⟩ ++
      (if (-q).den = 1 then "" else "." ++ ⟨fracDigits 20 (-q - (-q).floor)⟩)
  else
    (⟨natDigits q.floor.toNat⟩ : String) ++
      (if q.den = 1 then "" else "." ++ ⟨fracDigits 20 (q - q.floor)⟩)

/-- Is an `Except` value a success? -/
def exceptIsOk : Except String String → Bool
  | .ok _ => true
  | .error _ => false

/-- Does a successful `Except` result contain the given substring? -/
def exceptContains (e : Except String String) (pat : String) : Bool :=
  match e with
  | .ok s => containsSub s pat
  | .error _ => false

/-- The visual text style enum (`TextStyle` in the TypeScript types).
Values not named by the `switch` statements fall to the default branch;
`none` is the concrete default value used by the application and by
`generateEngravingSvg`'s override. -/
inductive TextStyle where
  | outline | shadow | glow | neon | three_d | metallic | chrome
  | gradient | varsity | none
deriving DecidableEq

/-- The layout arrangement enum (the `style` field of the design).
`other` stands for any of the remaining values of the TypeScript union,
all of which hit the `default` branch of `getTextElements`. -/
inductive LayoutStyle where
  | classic | lower_half_circle | upper_half_circle | upper_oval
  | lower_oval | full_circle | split | stacked_text | other
deriving DecidableEq

/-- The slice of `DesignOptions` read by the embedded module (the
TypeScript interface has many further fields, none of which the
`svgService` functions access). -/
structure DesignOptions where
  logo : Option String
  text : String
  font : String
  style : LayoutStyle
  textStyle : TextStyle
  textColor : String
  gradientStartColor : String
  gradientEndColor : String

/-- Result of the font resolver: a data URI and a format, or two empty
strings in the degraded state. -/
structure FontAsset where
  dataUri : String
  format : String
deriving DecidableEq

/-- `getTextStyleSvg`: presentation attributes for a text style. -/
def getTextStyleSvg (style : TextStyle) (textColor : String) (id : String) : String :=
  match style with
  | .outline => "stroke=\"black\" stroke-width=\"2\" fill=\"" ++ textColor ++ "\""
  | .shadow => "fill=\"" ++ textColor ++ "\" filter=\"url(#shadow-" ++ id ++ ")\""
  | .glow => "fill=\"white\" filter=\"url(#glow-" ++ id ++ ")\""
  | .neon => "fill=\"" ++ textColor ++ "\" filter=\"url(#neon-" ++ id ++ ")\""
  | .three_d => "fill=\"" ++ textColor ++ "\" filter=\"url(#three-d-" ++ id ++ ")\""
  | .metallic => "fill=\"url(#metallic-" ++ id ++ ")\""
  | .chrome => "fill=\"url(#chrome-" ++ id ++ ")\" stroke=\"#4B5563\" stroke-width=\"0.5\""
  | .gradient => "fill=\"url(#gradient-" ++ id ++ ")\""
  | .varsity => "stroke=\"black\" stroke-width=\"4\" stroke-linejoin=\"round\" fill=\"" ++ textColor ++ "\""
  | _ => "fill=\"" ++ textColor ++ "\""

/-- `getTextStyleDefs`: the `<defs>` markup (filters / gradients) for a
text style. -/
def getTextStyleDefs (style : TextStyle) (textColor gradientStart gradientEnd : String) (id : String) : String :=
  match style with
  | .shadow =>
    "\n        <filter id=\"shadow-" ++ id ++ "\" x=\"-20%\" y=\"-20%\" width=\"140%\" height=\"140%\">\n          <feDropShadow dx=\"3\" dy=\"3\" stdDeviation=\"3\" flood-color=\"rgba(0,0,0,0.5)\" />\n        </filter>"
  | .glow =>
    "\n        <filter id=\"glow-" ++ id ++ "\" x=\"-50%\" y=\"-50%\" width=\"200%\" height=\"200%\">\n          <feGaussianBlur in=\"SourceGraphic\" stdDeviation=\"4\" result=\"blur\" />\n          <feMerge>\n            <feMergeNode in=\"blur\" />\n            <feMergeNode in=\"SourceGraphic\" />\n          </feMerge>\n        </filter>"
  | .neon =>
    "\n        <filter id=\"neon-" ++ id ++ "\" x=\"-50%\" y=\"-50%\" width=\"200%\" height=\"200%\">\n            <feFlood result=\"flood\" flood-color=\"" ++ textColor ++ "\" flood-opacity=\"0.7\"/>\n            <feComposite in=\"flood\" in2=\"SourceGraphic\" operator=\"in\" result=\"color-out\"/>\n            <feGaussianBlur in=\"color-out\" stdDeviation=\"4\" result=\"blur-out\"/>\n            <feMerge>\n                <feMergeNode in=\"blur-out\" />\n                <feMergeNode in=\"SourceGraphic\"/>\n            </feMerge>\n        </filter>"
  | .three_d =>
    "\n        <filter id=\"three-d-" ++ id ++ "\" x=\"-20%\" y=\"-20%\" width=\"140%\" height=\"140%\">\n            <feDropShadow dx=\"3\" dy=\"3\" stdDeviation=\"0\" flood-color=\"#4B5563\" />\n        </filter>"
  | .metallic =>
    "\n        <linearGradient id=\"metallic-" ++ id ++ "\" x1=\"0%\" y1=\"0%\" x2=\"0%\" y2=\"100%\">\n            <stop offset=\"0%\" stop-color=\"#E5E7EB\" />\n            <stop offset=\"50%\" stop-color=\"#9CA3AF\" />\n            <stop offset=\"100%\" stop-color=\"#E5E7EB\" />\n        </linearGradient>"
  | .chrome =>
    "\n        <linearGradient id=\"chrome-" ++ id ++ "\" x1=\"0%\" y1=\"0%\" x2=\"0%\" y2=\"100%\">\n            <stop offset=\"0%\" stop-color=\"#6B7280\" /><stop offset=\"30%\" stop-color=\"#D1D5DB\" />\n            <stop offset=\"50%\" stop-color=\"#F9FAFB\" /><stop offset=\"70%\" stop-color=\"#D1D5DB\" />\n            <stop offset=\"100%\" stop-color=\"#6B7280\" />\n        </linearGradient>"
  | .gradient =>
    "\n        <linearGradient id=\"gradient-" ++ id ++ "\" x1=\"0%\" y1=\"0%\" x2=\"100%\" y2=\"100%\">\n            <stop offset=\"0%\" stop-color=\"" ++ gradientStart ++ "\" />\n            <stop offset=\"100%\" stop-color=\"" ++ gradientEnd ++ "\" />\n        </linearGradient>"
  | _ => ""

/-- The per-character replacement performed by `escapeXml`'s regexp
callback (the regexp `[<>&'"]` matches single characters, so the global
replace is a character-wise expansion). -/
def escChar (c : Char) : List Char :=
  if c = '<' then "&lt;".data
  else if c = '>' then "&gt;".data
  else if c = '&' then "&amp;".data
  else if c = apos then "&apos;".data
  else if c = '"' then "&quot;".data
  else [c]

/-- `escapeXml` on character lists. -/
def escapeXmlList (l : List Char) : List Char := l.flatMap escChar

/-- `escapeXml`: escapes the five XML-significant characters. -/
def escapeXml (s : String) : String := ⟨escapeXmlList s.data⟩

/-- Entity decoding of the five XML entities produced by `escapeXml`
(specification-side inverse, used to state the round-trip property). -/
def xmlDecodeList : List Char → List Char
  | [] => []
  | c :: rest =>
    if c = '&' then
      if isPrefOf ['l', 't', ';'] rest then '<' :: xmlDecodeList (rest.drop 3)
      else if isPrefOf ['g', 't', ';'] rest then '>' :: xmlDecodeList (rest.drop 3)
      else if isPrefOf ['a', 'm', 'p', ';'] rest then '&' :: xmlDecodeList (rest.drop 4)
      else if isPrefOf ['a', 'p', 'o', 's', ';'] rest then apos :: xmlDecodeList (rest.drop 5)
      else if isPrefOf ['q', 'u', 'o', 't', ';'] rest then '"' :: xmlDecodeList (rest.drop 5)
      else '&' :: xmlDecodeList rest
    else c :: xmlDecodeList rest
termination_by l => l.length
decreasing_by
  all_goals simp [List.length_drop]
  all_goals omega

/-- Entity decoding on strings. -/
def xmlDecode (s : String) : String := ⟨xmlDecodeList s.data⟩

/-- Outcome of one `fetch` call: a rejected promise (network error), a
resolved response with `ok === false`, or a successful body. -/
inductive FetchOutcome where
  | netError : FetchOutcome
  | httpError : String → FetchOutcome
  | ok : String → FetchOutcome

/-- Outcome of the `FileReader.readAsDataURL` base64 encoding step. -/
inductive ReaderOutcome where
  | success : String → ReaderOutcome
  | failure : ReaderOutcome

/-- The asynchronous environment of `fetchAndEncodeFont`: outcomes of
the CSS fetch, of the font-file fetch, and of the encoding step. -/
structure FontFetchEnv where
  cssFetch : FetchOutcome
  fileFetch : FetchOutcome
  reader : ReaderOutcome

/-- Characters of a candidate URL: everything up to the first `)` —
`none` when no closing parenthesis exists. -/
def takeUntilParen : List Char → Option (List Char)
  | [] => none
  | c :: t => if c = ')' then some [] else (takeUntilParen t).map (c :: ·)

/-- One attempt of the regexp `url\((https:\/\/[^)]+\.woff2)\)` at the
current position: the literal `url(`, then a capture of non-`)`
characters that starts with `https://` and ends with `.woff2`, with the
closing `)` immediately after (the `[^)]+` class makes the first `)`
the only possible end of the capture). -/
def woff2MatchHere (l : List Char) : Option (List Char) :=
  if isPrefOf "url(".data l then
    match takeUntilParen (l.drop 4) with
    | none => none
    | some body =>
      if isPrefOf "https://".data body &&
         isPrefOf ".woff2".data.reverse body.reverse &&
         decide (15 ≤ body.length) then
        some body
      else none
  else none

/-- Leftmost match of the woff2-URL regexp in the CSS text. -/
def extractWoff2Url : List Char → Option (List Char)
  | [] => none
  | c :: t =>
    match woff2MatchHere (c :: t) with
    | some r => some r
    | none => extractWoff2Url t

/-- The value a rejected `fetchAndEncodeFont` promise carries when the
`FileReader` errors (the reader's error event, passed to `reject`). -/
def readerFailureMsg : String := "FileReader error"

/-- `fetchAndEncodeFont`.  The `try`/`catch` converts every *awaited*
failure (rejected fetch, thrown non-ok error, missing woff2 URL) into
the empty asset.  The final base64 step, however, is `return new
Promise(...)` — the promise is returned, not awaited, so the async
function's result adopts it *after* the `try` block has been exited:
a `FileReader` error therefore rejects `fetchAndEncodeFont` itself,
bypassing the `catch`. -/
def fetchAndEncodeFont (env : FontFetchEnv) : Except String FontAsset :=
  match env.cssFetch with
  | .netError => .ok ⟨"", ""⟩
  | .httpError _ => .ok ⟨"", ""⟩
  | .ok cssText =>
    match extractWoff2Url cssText.data with
    | none => .ok ⟨"", ""⟩
    | some _ =>
      match env.fileFetch with
      | .netError => .ok ⟨"", ""⟩
      | .httpError _ => .ok ⟨"", ""⟩
      | .ok _ =>
        match env.reader with
        | .success dataUri => .ok ⟨dataUri, "woff2"⟩
        | .failure => .error readerFailureMsg

/-- The scale ratio `Math.min(maxLogoDim / width, maxLogoDim / height, 1)`
with `maxLogoDim = 400`.  In JavaScript a zero dimension makes its
quotient `Infinity`, which never wins the minimum against the finite
candidate `1`; the model drops the infinite candidates accordingly. -/
def ratioQ (w h : Nat) : ℚ :=
  if w = 0 then
    if h = 0 then 1 else min (400 / (h : ℚ)) 1
  else if h = 0 then min (400 / (w : ℚ)) 1
  else min (min (400 / (w : ℚ)) (400 / (h : ℚ))) 1

/-- The scaled logo box `{width * ratio, height * ratio}`. -/
def scaledLogoQ (w h : Nat) : ℚ × ℚ := ((w : ℚ) * ratioQ w h, (h : ℚ) * ratioQ w h)

/-- `TSHIRT_FONTS.find(f => f.id === font)?.name || 'Impact'` over the
injected catalog (`||` also replaces an empty display name, matching
JavaScript truthiness). -/
def lookupFontName (catalog : List (String × String)) (font : String) : String :=
  match catalog.find? (fun p => p.1 == font) with
  | some p => if p.2 = "" then "Impact" else p.2
  | none => "Impact"

/-- The Google-Fonts CSS descriptor URL for a display name. -/
def buildFontUrl (fontName : String) : String :=
  "https://fonts.googleapis.com/css2?family=" ++ jsReplaceChar fontName ' ' "+"
    ++ ":wght@400;700&display=swap"

/-- The `<style>@import …</style>` fallback (ampersands escaped for XML). -/
def importStyleDef (fontUrl : String) : String :=
  "<style>@import url('" ++ jsReplaceChar fontUrl '&' "&amp;" ++ "');</style>"

/-- The embedded `@font-face` style block used when the font fetch
succeeded. -/
def embedStyleDef (fontName : String) (fd : FontAsset) : String :=
  "\n            <style>\n                @font-face \x7b\n                    font-family: '"
    ++ fontName
    ++ "';\n                    src: url("
    ++ fd.dataUri
    ++ ") format('"
    ++ fd.format
    ++ "');\n                \x7d\n            </style>"

/-- The word split performed by the `full_circle` and `split` branches:
`words = text.split(/\s+/)`, `midPoint = Math.ceil(words.length / 2)`,
first half `words.slice(0, midPoint).join(' ')`, second half
`words.slice(midPoint).join(' ')`. -/
def wordHalves (text : String) : String × String :=
  let words := jsSplitWs text
  let midPoint := ceilHalf words.length
  (joinSpace (words.take midPoint), joinSpace (words.drop midPoint))

/-- The shared text presentation attributes of `getTextElements`: note
the id passed to `getTextStyleSvg` is the *hard-coded* `"text-element"`
(`const textId = "text-element";` inside `getTextElements`). -/
def commonTextPropsOf (catalog : List (String × String)) (design : DesignOptions) : String :=
  getTextStyleSvg design.textStyle design.textColor "text-element"
    ++ " font-family=\"'" ++ lookupFontName catalog design.font
    ++ "', sans-serif\" font-size=\"50px\""

/-- `getTextElements`: layout-dependent text/path markup. -/
def getTextElements (catalog : List (String × String)) (design : DesignOptions)
    (scaledLogo : ℚ × ℚ) (center : ℚ × ℚ) : String :=
  let text := design.text
  let common := commonTextPropsOf catalog design
  let cx := center.1
  let cy := center.2
  let w := scaledLogo.1
  let h := scaledLogo.2
  match design.style with
  | .classic | .lower_half_circle =>
    let r := w / 2 + 30
    let pathD := "M " ++ jsNumStr (cx - r) ++ "," ++ jsNumStr (cy + h / 2 + 20)
      ++ " A " ++ jsNumStr r ++ "," ++ jsNumStr r ++ " 0 0 1 "
      ++ jsNumStr (cx + r) ++ "," ++ jsNumStr (cy + h / 2 + 20)
    "<defs><path id=\"text-path-lower\" d=\"" ++ pathD
      ++ "\" fill=\"none\"/></defs><text><textPath href=\"#text-path-lower\" startOffset=\"50%\" text-anchor=\"middle\" "
      ++ common ++ ">" ++ escapeXml text ++ "</textPath></text>"
  | .upper_half_circle =>
    let r := w / 2 + 30
    let pathD := "M " ++ jsNumStr (cx + r) ++ "," ++ jsNumStr (cy - h / 2 - 20)
      ++ " A " ++ jsNumStr r ++ "," ++ jsNumStr r ++ " 0 0 0 "
      ++ jsNumStr (cx - r) ++ "," ++ jsNumStr (cy - h / 2 - 20)
    "<defs><path id=\"text-path-upper\" d=\"" ++ pathD
      ++ "\" fill=\"none\"/></defs><text><textPath href=\"#text-path-upper\" startOffset=\"50%\" text-anchor=\"middle\" "
      ++ common ++ ">" ++ escapeXml text ++ "</textPath></text>"
  | .upper_oval =>
    let rx := w / 2 + 80
    let ry : ℚ := 60
    let pathD := "M " ++ jsNumStr (cx + rx) ++ "," ++ jsNumStr (cy - h / 2 - 20)
      ++ " A " ++ jsNumStr rx ++ "," ++ jsNumStr ry ++ " 0 0 0 "
      ++ jsNumStr (cx - rx) ++ "," ++ jsNumStr (cy - h / 2 - 20)
    "<defs><path id=\"text-path-upper-oval\" d=\"" ++ pathD
      ++ "\" fill=\"none\"/></defs><text><textPath href=\"#text-path-upper-oval\" startOffset=\"50%\" text-anchor=\"middle\" "
      ++ common ++ ">" ++ escapeXml text ++ "</textPath></text>"
  | .lower_oval =>
    let rx := w / 2 + 80
    let ry : ℚ := 60
    let pathD := "M " ++ jsNumStr (cx - rx) ++ "," ++ jsNumStr (cy + h / 2 + 20)
      ++ " A " ++ jsNumStr rx ++ "," ++ jsNumStr ry ++ " 0 0 1 "
      ++ jsNumStr (cx + rx) ++ "," ++ jsNumStr (cy + h / 2 + 20)
    "<defs><path id=\"text-path-lower-oval\" d=\"" ++ pathD
      ++ "\" fill=\"none\"/></defs><text><textPath href=\"#text-path-lower-oval\" startOffset=\"50%\" text-anchor=\"middle\" "
      ++ common ++ ">" ++ escapeXml text ++ "</textPath></text>"
  | .full_circle =>
    let halves := wordHalves text
    let r := max w h / 2 + 50
    let pathTopD := "M " ++ jsNumStr (cx + r) ++ "," ++ jsNumStr cy ++ " A "
      ++ jsNumStr r ++ "," ++ jsNumStr r ++ " 0 0 0 " ++ jsNumStr (cx - r) ++ "," ++ jsNumStr cy
    let pathBottomD := "M " ++ jsNumStr (cx - r) ++ "," ++ jsNumStr cy ++ " A "
      ++ jsNumStr r ++ "," ++ jsNumStr r ++ " 0 0 1 " ++ jsNumStr (cx + r) ++ "," ++ jsNumStr cy
    "<defs><path id=\"text-path-top\" d=\"" ++ pathTopD
      ++ "\"/><path id=\"text-path-bottom\" d=\"" ++ pathBottomD ++ "\"/></defs>\n                <text><textPath "
      ++ ("href=\"#text-path-top\" startOffset=\"50%\" text-anchor=\"middle\" "
        ++ common ++ ">" ++ escapeXml halves.1 ++ "</textPath>")
      ++ "</text>\n                <text><textPath "
      ++ ("href=\"#text-path-bottom\" startOffset=\"50%\" text-anchor=\"middle\" "
        ++ common ++ ">" ++ escapeXml halves.2 ++ "</textPath>")
      ++ "</text>"
  | .split =>
    let halves := wordHalves text
    "<text x=\"" ++ jsNumStr (cx - w / 2 - 20) ++ "\" y=\"" ++ jsNumStr cy
      ++ ("\" text-anchor=\"end\" dominant-baseline=\"middle\" " ++ common ++ ">"
        ++ escapeXml halves.1 ++ "</text>")
      ++ "\n                <text x=\"" ++ jsNumStr (cx + w / 2 + 20) ++ "\" y=\"" ++ jsNumStr cy
      ++ ("\" text-anchor=\"start\" dominant-baseline=\"middle\" " ++ common ++ ">"
        ++ escapeXml halves.2 ++ "</text>")
  | .stacked_text =>
    let words := jsSplitWs text
    String.join (words.mapIdx fun i word =>
      "<text x=\"" ++ jsNumStr cx ++ "\" y=\"" ++ jsNumStr (cy + h / 2 + 30 + (i : ℚ) * 60)
        ++ "\" text-anchor=\"middle\" " ++ common ++ ">" ++ escapeXml word ++ "</text>")
  | .other =>
    "<text x=\"" ++ jsNumStr cx ++ "\" y=\"" ++ jsNumStr (cy + h / 2 + 60)
      ++ "\" text-anchor=\"middle\" " ++ common ++ ">" ++ escapeXml text ++ "</text>"

/-- The minimal empty canvas returned for empty / whitespace-only text. -/
def minimalCanvasSvg : String :=
  "<svg xmlns=\"http://www.w3.org/2000/svg\" width=\"1000\" height=\"1000\"></svg>"

/-- The full text-only document template (fixed 1000×1000 viewbox). -/
def textOnlyDoc (fontStyleDef textStyleDefs textElements : String) : String :=
  "\n<svg width=\"1000\" height=\"1000\" viewBox=\"0 0 1000 1000\" xmlns=\"http://www.w3.org/2000/svg\">\n  <defs>\n    "
    ++ fontStyleDef ++ "\n    " ++ textStyleDefs ++ "\n  </defs>\n  "
    ++ textElements ++ "\n</svg>"

/-- `generateTextOnlySvg`.  `dims` is the outcome of the (successful)
logo decode `getLogoDimensions`; `env` is consulted only when
`embedFont` is true.  A `.error` result models a rejected promise. -/
def generateTextOnlySvg (catalog : List (String × String)) (design : DesignOptions)
    (embedFont : Bool) (dims : Nat × Nat) (env : FontFetchEnv) : Except String String :=
  match design.logo with
  | none => .error "Logo is required for layout."
  | some _ =>
    if jsTrim design.text = "" then .ok minimalCanvasSvg
    else
      let scaledLogo := scaledLogoQ dims.1 dims.2
      let fontName := lookupFontName catalog design.font
      let fontUrl := buildFontUrl fontName
      let textStyleDefs := getTextStyleDefs design.textStyle design.textColor
        design.gradientStartColor design.gradientEndColor "text-element"
      let textElements := getTextElements catalog design scaledLogo (500, 500)
      if embedFont then
        match fetchAndEncodeFont env with
        | .error e => .error e
        | .ok fontData =>
          if fontData.dataUri = "" then
            .ok (textOnlyDoc (importStyleDef fontUrl) textStyleDefs textElements)
          else
            .ok (textOnlyDoc (embedStyleDef fontName fontData) textStyleDefs textElements)
      else
        .ok (textOnlyDoc (importStyleDef fontUrl) textStyleDefs textElements)

/-- `generateCombinedSvg`: the logo image plus the text layout, using
the id namespace `design-element` for the style defs. -/
def generateCombinedSvg (catalog : List (String × String)) (design : DesignOptions)
    (dims : Nat × Nat) : Except String String :=
  match design.logo with
  | none => .error "Logo is required to generate the design SVG."
  | some logo =>
    let scaledLogo := scaledLogoQ dims.1 dims.2
    let logoX := 500 - scaledLogo.1 / 2
    let logoY := 500 - scaledLogo.2 / 2
    let fontName := lookupFontName catalog design.font
    let fontStyleDef := importStyleDef (buildFontUrl fontName)
    let textStyleDefs := getTextStyleDefs design.textStyle design.textColor
      design.gradientStartColor design.gradientEndColor "design-element"
    let textElements :=
      if jsTrim design.text = "" then "" else getTextElements catalog design scaledLogo (500, 500)
    .ok ("\n<svg width=\"1000\" height=\"1000\" viewBox=\"0 0 1000 1000\" xmlns=\"http://www.w3.org/2000/svg\" xmlns:xlink=\"http://www.w3.org/1999/xlink\">\n  <defs>\n    "
      ++ fontStyleDef ++ "\n    " ++ textStyleDefs ++ "\n  </defs>\n  <image \n    href=\""
      ++ logo ++ "\" \n    x=\"" ++ jsNumStr logoX ++ "\" y=\"" ++ jsNumStr logoY
      ++ "\" \n    width=\"" ++ jsNumStr scaledLogo.1 ++ "\" height=\"" ++ jsNumStr scaledLogo.2
      ++ "\" \n    preserveAspectRatio=\"xMidYMid meet\"\n  />\n  "
      ++ textElements ++ "\n</svg>")

/-- `generateEngravingSvg`: forces `textColor` to `#000000` and
`textStyle` to `none`, strips the envelope of the text-only document by
`substring(indexOf('<defs>'))` plus removal of the first `"</svg>"`,
and recombines it with a desaturated image element. -/
def generateEngravingSvg (catalog : List (String × String)) (design : DesignOptions)
    (dims : Nat × Nat) (env : FontFetchEnv) : Except String String :=
  match design.logo with
  | none => .error "Logo is required for layout."
  | some logo =>
    let scaledLogo := scaledLogoQ dims.1 dims.2
    match generateTextOnlySvg catalog
        { design with textColor := "#000000", textStyle := TextStyle.none } false dims env with
    | .error e => .error e
    | .ok textSvg =>
      let textSvgContent :=
        jsReplaceFirst (jsSubstringFrom textSvg (jsIndexOf textSvg "<defs>")) "</svg>" ""
      let logoX := 500 - scaledLogo.1 / 2
      let logoY := 500 - scaledLogo.2 / 2
      .ok ("\n<svg width=\"1000\" height=\"1000\" viewBox=\"0 0 1000 1000\" xmlns=\"http://www.w3.org/2000/svg\" xmlns:xlink=\"http://www.w3.org/1999/xlink\">\n  <defs>\n    <filter id=\"monochrome\">\n      <feColorMatrix type=\"saturate\" values=\"0\" />\n    </filter>\n  </defs>\n  "
        ++ textSvgContent ++ "\n  <image \n    href=\"" ++ logo ++ "\" \n    x=\""
        ++ jsNumStr logoX ++ "\" y=\"" ++ jsNumStr logoY ++ "\" \n    width=\""
        ++ jsNumStr scaledLogo.1 ++ "\" height=\"" ++ jsNumStr scaledLogo.2
        ++ "\" \n    preserveAspectRatio=\"xMidYMid meet\"\n    filter=\"url(#monochrome)\" \n  />\n</svg>")

/-- The inner document's opening tag left behind by the envelope strip
when the text-only document is the minimal canvas (no `<defs>`). -/
def innerOpenTag : String :=
  "<svg xmlns=\"http://www.w3.org/2000/svg\" width=\"1000\" height=\"1000\">"

/-- The engraving document produced for a design with a logo and
empty / whitespace-only text: since the inner text-only document has no
`<defs>`, `indexOf` yields `-1`, `substring(-1)` yields the whole inner
document, and only its closing tag is removed — its opening `<svg>` tag
is embedded verbatim. -/
def engravingEmptyDoc (lg : String) (dims : Nat × Nat) : String :=
  "\n<svg width=\"1000\" height=\"1000\" viewBox=\"0 0 1000 1000\" xmlns=\"http://www.w3.org/2000/svg\" xmlns:xlink=\"http://www.w3.org/1999/xlink\">\n  <defs>\n    <filter id=\"monochrome\">\n      <feColorMatrix type=\"saturate\" values=\"0\" />\n    </filter>\n  </defs>\n  "
    ++ innerOpenTag ++ "\n  <image \n    href=\"" ++ lg ++ "\" \n    x=\""
    ++ jsNumStr (500 - (scaledLogoQ dims.1 dims.2).1 / 2) ++ "\" y=\""
    ++ jsNumStr (500 - (scaledLogoQ dims.1 dims.2).2 / 2) ++ "\" \n    width=\""
    ++ jsNumStr (scaledLogoQ dims.1 dims.2).1 ++ "\" height=\""
    ++ jsNumStr (scaledLogoQ dims.1 dims.2).2
    ++ "\" \n    preserveAspectRatio=\"xMidYMid meet\"\n    filter=\"url(#monochrome)\" \n  />\n</svg>"

/-- A design exercising the `classic` layout with the `shadow` style. -/
def dShadow : DesignOptions :=
  ⟨some "LOGO", "HI", "f", LayoutStyle.classic, TextStyle.shadow, "#FF0000", "#111111", "#222222"⟩

/-- `dShadow` without a logo. -/
def dNoLogo : DesignOptions :=
  ⟨none, "HI", "f", LayoutStyle.classic, TextStyle.shadow, "#FF0000", "#111111", "#222222"⟩

/-- A design whose text is whitespace-only. -/
def dBlank : DesignOptions :=
  ⟨some "data:image/png;base64,AA", "  ", "f", LayoutStyle.classic, TextStyle.none,
    "#000000", "#111111", "#222222"⟩

/-- The three-word design of the word-split tie-break property. -/
def dAbc : DesignOptions :=
  ⟨some "LOGO", "A B C", "f", LayoutStyle.full_circle, TextStyle.none, "#00FF00",
    "#111111", "#222222"⟩

/-- An environment in which every network access fails. -/
def envDummy : FontFetchEnv := ⟨FetchOutcome.netError, FetchOutcome.netError, ReaderOutcome.failure⟩

/-- An environment in which both fetches succeed (the CSS body holds a
woff2 URL) but the `FileReader` encoding step errors. -/
def envReaderFail : FontFetchEnv :=
  ⟨FetchOutcome.ok "@font-face: src: url(https://fonts.gstatic.com/s/x.woff2) format('woff2');",
    FetchOutcome.ok "FONTBYTES", ReaderOutcome.failure⟩

/-- A design exercising the default (flat) layout with markup-significant
characters in its text. -/
def dOther : DesignOptions :=
  ⟨some "LOGO", "x<y", "f", LayoutStyle.other, TextStyle.none, "#123456", "#111111", "#222222"⟩

/-! ## Theorems -/

set_option maxRecDepth 200000

theorem strdata_append (a b : String) : (a ++ b).data = a.data ++ b.data := rfl

theorem isPrefOf_append_self (p r : List Char) : isPrefOf p (p ++ r) = true := by
  induction p with
  | nil => rfl
  | cons c t ih => simp [isPrefOf, ih]

theorem isPrefOf_mono (p l r : List Char) (h : isPrefOf p l = true) :
    isPrefOf p (l ++ r) = true := by
  induction p generalizing l with
  | nil => rfl
  | cons c t ih =>
    cases l with
    | nil => simp [isPrefOf] at h
    | cons b bs =>
      simp only [isPrefOf] at h ⊢
      rcases em (c = b) with hc | hc
      · simpa [hc] using ih bs (by simpa [hc] using h)
      · simp [hc] at h

theorem containsList_nil_pat (l : List Char) : containsList [] l = true := by
  induction l with
  | nil => rfl
  | cons c t ih => simp [containsList, ih, isPrefOf]

theorem containsList_mono_right (pat a b : List Char) (h : containsList pat a = true) :
    containsList pat (a ++ b) = true := by
  induction a with
  | nil =>
    cases pat with
    | nil => exact containsList_nil_pat b
    | cons c t => simp [containsList, isPrefOf] at h
  | cons c t ih =>
    simp only [containsList, Bool.or_eq_true] at h ⊢
    rcases h with h | h
    · exact Or.inl (isPrefOf_mono _ _ _ h)
    · exact Or.inr (ih h)

theorem containsList_append_left (pat a b : List Char) (h : containsList pat b = true) :
    containsList pat (a ++ b) = true := by
  induction a with
  | nil => simpa using h
  | cons c t ih => simp [containsList, Bool.or_eq_true]; right; exact (by simpa using ih)

theorem containsList_middle (pat a b : List Char) :
    containsList pat (a ++ (pat ++ b)) = true := by
  apply containsList_append_left
  cases pat with
  | nil => exact containsList_nil_pat _
  | cons c t =>
    simp only [containsList, Bool.or_eq_true]
    exact Or.inl (isPrefOf_append_self _ _)

/-- C7: for every design without a logo, each of the three compose
operations rejects with a "logo required" message. -/
theorem compose_requires_logo (catalog : List (String × String)) (d : DesignOptions)
    (dims : Nat × Nat) (env : FontFetchEnv) (embedFont : Bool) (h : d.logo = none) :
    generateTextOnlySvg catalog d embedFont dims env = .error "Logo is required for layout."
    ∧ generateCombinedSvg catalog d dims = .error "Logo is required to generate the design SVG."
    ∧ generateEngravingSvg catalog d dims env = .error "Logo is required for layout."
    ∧ containsSub "Logo is required for layout." "Logo is required" = true
    ∧ containsSub "Logo is required to generate the design SVG." "Logo is required" = true := by
  refine ⟨?_, ?_, ?_, ?_, ?_⟩
  · simp [generateTextOnlySvg, h]
  · simp [generateCombinedSvg, h]
  · simp [generateEngravingSvg, h]
  · with_unfolding_all decide
  · with_unfolding_all decide

/-- Witness for C7 at a concrete logo-less design. -/
theorem compose_requires_logo_witness :
    dNoLogo.logo = none
    ∧ generateCombinedSvg [] dNoLogo (10, 10) = .error "Logo is required to generate the design SVG." :=
  ⟨rfl, (compose_requires_logo [] dNoLogo (10, 10) envDummy false rfl).2.1⟩

/-- C9 (counterexample): the claim promises the minimal empty canvas
"without error … regardless of other options" for every empty-text
design, but a design with empty text and *no logo* is rejected (the
logo check precedes the empty-text early return). -/
theorem empty_text_nologo_rejects :
    generateTextOnlySvg []
      ⟨none, "", "f", LayoutStyle.classic, TextStyle.none, "#000000", "#111111", "#222222"⟩
      false (10, 10) envDummy = .error "Logo is required for layout." := by
  with_unfolding_all rfl

/-- C9 (amended): for every design *with a logo* whose text is empty or
whitespace-only, `generateTextOnlySvg` succeeds with the minimal empty
1000×1000 canvas, which contains no text and no path elements —
regardless of the embed flag, dimensions, environment and the other
design options. -/
theorem empty_text_minimal_canvas (catalog : List (String × String)) (d : DesignOptions)
    (embedFont : Bool) (dims : Nat × Nat) (env : FontFetchEnv) (lg : String)
    (h1 : d.logo = some lg) (h2 : jsTrim d.text = "") :
    generateTextOnlySvg catalog d embedFont dims env = .ok minimalCanvasSvg
    ∧ containsSub minimalCanvasSvg "<text" = false
    ∧ containsSub minimalCanvasSvg "<path" = false := by
  refine ⟨?_, ?_, ?_⟩
  · simp [generateTextOnlySvg, h1, h2]
  · with_unfolding_all decide
  · with_unfolding_all decide

/-- Witness for the amended C9 at a concrete whitespace-only design. -/
theorem empty_text_minimal_canvas_witness :
    generateTextOnlySvg [] dBlank false (10, 10) envDummy = .ok minimalCanvasSvg :=
  (empty_text_minimal_canvas [] dBlank false (10, 10) envDummy "data:image/png;base64,AA"
    rfl (by with_unfolding_all rfl)).1

/-- C2: when both fetches succeed but the `FileReader` encoding step
errors, `fetchAndEncodeFont` *rejects* (the base64 promise is returned
from inside the `try` rather than awaited, so its rejection is adopted
after the `catch` can no longer intercept it), and the rejection
propagates out of `generateTextOnlySvg(embed=true)`.  Fetch-level
failures, by contrast, do resolve to the empty asset, in which case the
embed-mode document falls back to the same `@import` style block as the
non-embed mode. -/
theorem font_reader_failure_rejects :
    fetchAndEncodeFont envReaderFail = .error readerFailureMsg
    ∧ generateTextOnlySvg [] dShadow true (200, 100) envReaderFail = .error readerFailureMsg
    ∧ fetchAndEncodeFont envDummy = .ok ⟨"", ""⟩
    ∧ generateTextOnlySvg [] dShadow true (200, 100) envDummy
      = generateTextOnlySvg [] dShadow false (200, 100) envDummy := by
  refine ⟨?_, ?_, ?_, ?_⟩
  · with_unfolding_all rfl
  · with_unfolding_all rfl
  · with_unfolding_all rfl
  · with_unfolding_all rfl

/-- C1: the id namespaces are *not* independent.  In the combined
document the style defs are namespaced `design-element`, but the text
elements produced by `getTextElements` reference the hard-coded
`text-element` namespace, so the `shadow` filter reference dangles; and
the per-path id `text-path-lower` is generated identically in both the
text-only and the combined documents of the same design. -/
theorem combined_id_namespace_bug :
    exceptContains (generateCombinedSvg [] dShadow (200, 100)) "url(#shadow-text-element)" = true
    ∧ exceptContains (generateCombinedSvg [] dShadow (200, 100)) "id=\"shadow-design-element\"" = true
    ∧ exceptContains (generateCombinedSvg [] dShadow (200, 100)) "id=\"shadow-text-element\"" = false
    ∧ exceptContains (generateTextOnlySvg [] dShadow false (200, 100) envDummy) "id=\"shadow-text-element\"" = true
    ∧ exceptContains (generateCombinedSvg [] dShadow (200, 100)) "id=\"text-path-lower\"" = true
    ∧ exceptContains (generateTextOnlySvg [] dShadow false (200, 100) envDummy) "id=\"text-path-lower\"" = true := by
  refine ⟨?_, ?_, ?_, ?_, ?_, ?_⟩ <;> with_unfolding_all decide

/-- C3 (counterexample): a zero decoded dimension does *not* make the
compose operations reject — both succeed on a 0×200 logo. -/
theorem zero_dims_counterexample :
    exceptIsOk (generateTextOnlySvg [] dShadow false (0, 200) envDummy) = true
    ∧ exceptIsOk (generateCombinedSvg [] dShadow (0, 200)) = true := by
  constructor <;> with_unfolding_all decide

/-- C3 (amended): with a logo present, zero decoded dimensions are not
treated as an error: the compose operation still succeeds, and the
ratio computation stays finite — the JavaScript `400/0 = Infinity`
candidates are discarded by the `Math.min(…, 1)` cap, so the ratio is a
positive rational `≤ 1` and the zero dimension simply scales to `0`. -/
theorem zero_dims_no_reject (catalog : List (String × String)) (d : DesignOptions) (lg : String)
    (h : d.logo = some lg) (env : FontFetchEnv) (w h' : Nat) (hz : w = 0 ∨ h' = 0) :
    (∃ s, generateCombinedSvg catalog d (w, h') = .ok s)
    ∧ (∃ s2, generateTextOnlySvg catalog d false (w, h') env = .ok s2)
    ∧ 0 < ratioQ w h' ∧ ratioQ w h' ≤ 1
    ∧ (w = 0 → (scaledLogoQ w h').1 = 0)
    ∧ (h' = 0 → (scaledLogoQ w h').2 = 0) := by
  have hpos : ∀ n : Nat, n ≠ 0 → (0 : ℚ) < 400 / (n : ℚ) := by
    intro n hn
    apply div_pos (by norm_num)
    exact_mod_cast Nat.pos_of_ne_zero hn
  refine ⟨?_, ?_, ?_, ?_, ?_, ?_⟩
  · simp only [generateCombinedSvg, h]
    exact ⟨_, rfl⟩
  · simp only [generateTextOnlySvg, h]
    by_cases htr : jsTrim d.text = ""
    · simp [htr]
    · simp [htr]
  · unfold ratioQ
    split_ifs with h1 h2 h3
    · norm_num
    · exact lt_min (hpos _ h2) one_pos
    · exact lt_min (hpos _ h1) one_pos
    · exact lt_min (lt_min (hpos _ h1) (hpos _ h3)) one_pos
  · unfold ratioQ
    split_ifs with h1 h2 h3
    · exact le_refl 1
    · exact min_le_right _ _
    · exact min_le_right _ _
    · exact min_le_right _ _
  · intro hw
    simp [scaledLogoQ, hw]
  · intro hh
    simp [scaledLogoQ, hh]

/-- Witness for the amended C3 at a 0×500 logo. -/
theorem zero_dims_no_reject_witness :
    0 < ratioQ 0 500 ∧ ratioQ 0 500 ≤ 1 ∧ (scaledLogoQ 0 500).1 = 0 :=
  ⟨(zero_dims_no_reject [] dShadow "LOGO" rfl envDummy 0 500 (Or.inl rfl)).2.2.1,
   (zero_dims_no_reject [] dShadow "LOGO" rfl envDummy 0 500 (Or.inl rfl)).2.2.2.1,
   (zero_dims_no_reject [] dShadow "LOGO" rfl envDummy 0 500 (Or.inl rfl)).2.2.2.2.1 rfl⟩

/-- C5: `scaleToFit` is the pure function
`ratio = min(400/width, 400/height, 1)`: dimensions both within 400
come back unchanged (ratio 1); when either exceeds 400, the scaled
box's larger dimension is exactly 400 and the aspect ratio is
preserved (cross-multiplication); and in all cases the scaled box is
the input dimensions multiplied by the ratio. -/
theorem scaleToFit_spec (w h : Nat) :
    ((w ≤ 400 ∧ h ≤ 400) → ratioQ w h = 1 ∧ scaledLogoQ w h = ((w : ℚ), (h : ℚ)))
    ∧ ((400 < w ∨ 400 < h) →
        max (scaledLogoQ w h).1 (scaledLogoQ w h).2 = 400
        ∧ (scaledLogoQ w h).1 * (h : ℚ) = (scaledLogoQ w h).2 * (w : ℚ))
    ∧ scaledLogoQ w h = ((w : ℚ) * ratioQ w h, (h : ℚ) * ratioQ w h) := by
  have cast_pos : ∀ n : Nat, n ≠ 0 → (0 : ℚ) < (n : ℚ) := by
    intro n hn
    exact_mod_cast Nat.pos_of_ne_zero hn
  refine ⟨?_, ?_, rfl⟩
  · rintro ⟨hw, hh⟩
    have hr : ratioQ w h = 1 := by
      unfold ratioQ
      split_ifs with h1 h2 h3
      · rfl
      · rw [min_eq_right]
        rw [le_div_iff₀ (cast_pos h h2), one_mul]
        exact_mod_cast hh
      · rw [min_eq_right]
        rw [le_div_iff₀ (cast_pos w h1), one_mul]
        exact_mod_cast hw
      · rw [min_eq_right]
        apply le_min
        · rw [le_div_iff₀ (cast_pos w h1), one_mul]
          exact_mod_cast hw
        · rw [le_div_iff₀ (cast_pos h h3), one_mul]
          exact_mod_cast hh
    exact ⟨hr, by simp [scaledLogoQ, hr]⟩
  · intro hlt
    by_cases hw0 : w = 0
    · have hh4 : 400 < h := by
        rcases hlt with h1 | h1
        · omega
        · exact h1
      have hh0 : h ≠ 0 := by omega
      have hr : ratioQ w h = 400 / (h : ℚ) := by
        unfold ratioQ
        rw [if_pos hw0, if_neg hh0]
        apply min_eq_left
        rw [div_le_one (cast_pos h hh0)]
        exact_mod_cast hh4.le
      subst hw0
      have hne : (h : ℚ) ≠ 0 := ne_of_gt (cast_pos h hh0)
      constructor
      · have e1 : (scaledLogoQ 0 h).1 = 0 := by simp [scaledLogoQ]
        have e2 : (scaledLogoQ 0 h).2 = 400 := by
          simp only [scaledLogoQ, hr]
          field_simp
        rw [e1, e2]
        exact max_eq_right (by norm_num)
      · simp only [scaledLogoQ, Nat.cast_zero, zero_mul]
        ring
    · by_cases hh0 : h = 0
      · have hw4 : 400 < w := by
          rcases hlt with h1 | h1
          · exact h1
          · omega
        have hr : ratioQ w h = 400 / (w : ℚ) := by
          unfold ratioQ
          rw [if_neg hw0, if_pos hh0]
          apply min_eq_left
          rw [div_le_one (cast_pos w hw0)]
          exact_mod_cast hw4.le
        subst hh0
        have hne : (w : ℚ) ≠ 0 := ne_of_gt (cast_pos w hw0)
        constructor
        · have e1 : (scaledLogoQ w 0).2 = 0 := by simp [scaledLogoQ]
          have e2 : (scaledLogoQ w 0).1 = 400 := by
            simp only [scaledLogoQ, hr]
            field_simp
          rw [e1, e2]
          exact max_eq_left (by norm_num)
        · simp only [scaledLogoQ, Nat.cast_zero, zero_mul]
          ring
      · have hmpos : (0 : ℚ) < max (w : ℚ) (h : ℚ) :=
          lt_max_of_lt_left (cast_pos w hw0)
        have hm400 : (400 : ℚ) < max (w : ℚ) (h : ℚ) := by
          rcases hlt with h1 | h1
          · exact lt_max_of_lt_left (by exact_mod_cast h1)
          · exact lt_max_of_lt_right (by exact_mod_cast h1)
        have hminmin : min (400 / (w : ℚ)) (400 / (h : ℚ)) = 400 / max (w : ℚ) (h : ℚ) := by
          rcases le_total (w : ℚ) (h : ℚ) with hle | hle
          · rw [max_eq_right hle, min_eq_right]
            gcongr
          · rw [max_eq_left hle, min_eq_left]
            gcongr
        have hr : ratioQ w h = 400 / max (w : ℚ) (h : ℚ) := by
          unfold ratioQ
          rw [if_neg hw0, if_neg hh0, hminmin]
          apply min_eq_left
          rw [div_le_one hmpos]
          exact hm400.le
        constructor
        · simp only [scaledLogoQ, hr]
          rw [← max_mul_of_nonneg _ _ (le_of_lt (div_pos (by norm_num) hmpos))]
          rw [mul_comm, div_mul_cancel₀ _ (ne_of_gt hmpos)]
        · simp only [scaledLogoQ]
          ring

/-- Witness for C5 at 300×200 (unchanged) and 800×200 (scaled). -/
theorem scaleToFit_spec_witness :
    ratioQ 300 200 = 1
    ∧ max (scaledLogoQ 800 200).1 (scaledLogoQ 800 200).2 = 400 :=
  ⟨((scaleToFit_spec 300 200).1 ⟨by decide, by decide⟩).1,
   ((scaleToFit_spec 800 200).2.1 (Or.inl (by decide))).1⟩

theorem isPrefOf_refl (l : List Char) : isPrefOf l l = true := by
  induction l with
  | nil => rfl
  | cons c t ih => simp [isPrefOf, ih]

theorem containsList_self (l : List Char) : containsList l l = true := by
  cases l with
  | nil => rfl
  | cons c t => simp [containsList, isPrefOf_refl]

theorem xmlDecodeList_escape (l : List Char) : xmlDecodeList (escapeXmlList l) = l := by
  induction l with
  | cons c t ih =>
    have hsplit : escapeXmlList (c :: t) = escChar c ++ escapeXmlList t := by
      simp [escapeXmlList]
    rw [hsplit]
    by_cases h1 : c = '<'
    · subst h1
      have he : escChar '<' = ['&', 'l', 't', ';'] := by decide
      rw [he]
      simp [xmlDecodeList, isPrefOf, ih]
    · by_cases h2 : c = '>'
      · subst h2
        have he : escChar '>' = ['&', 'g', 't', ';'] := by decide
        rw [he]
        simp [xmlDecodeList, isPrefOf, ih]
      · by_cases h3 : c = '&'
        · subst h3
          have he : escChar '&' = ['&', 'a', 'm', 'p', ';'] := by decide
          rw [he]
          simp [xmlDecodeList, isPrefOf, ih]
        · by_cases h4 : c = apos
          · subst h4
            have he : escChar apos = ['&', 'a', 'p', 'o', 's', ';'] := by decide
            rw [he]
            simp [xmlDecodeList, isPrefOf, ih]
          · by_cases h5 : c = '"'
            · subst h5
              have he : escChar '"' = ['&', 'q', 'u', 'o', 't', ';'] := by decide
              rw [he]
              simp [xmlDecodeList, isPrefOf, ih]
            · have he : escChar c = [c] := by
                unfold escChar
                rw [if_neg h1, if_neg h2, if_neg h3, if_neg h4, if_neg h5]
              rw [he]
              show xmlDecodeList (c :: escapeXmlList t) = c :: t
              simp [xmlDecodeList, h3, ih]
  | nil => simp [escapeXmlList, xmlDecodeList]

theorem escapeXml_no_raw (l : List Char) :
    ((escapeXmlList l).all fun c =>
      !(c == '<') && !(c == '>') && !(c == '"') && !(c == apos)) = true := by
  induction l with
  | nil => rfl
  | cons c t ih =>
    have hsplit : escapeXmlList (c :: t) = escChar c ++ escapeXmlList t := by
      simp [escapeXmlList]
    rw [hsplit, List.all_append, ih, Bool.and_true]
    by_cases h1 : c = '<'
    · subst h1; decide
    · by_cases h2 : c = '>'
      · subst h2; decide
      · by_cases h3 : c = '&'
        · subst h3; decide
        · by_cases h4 : c = apos
          · subst h4; decide
          · by_cases h5 : c = '"'
            · subst h5; decide
            · have he : escChar c = [c] := by
                unfold escChar
                rw [if_neg h1, if_neg h2, if_neg h3, if_neg h4, if_neg h5]
              rw [he]
              simp [List.all, beq_eq_false_iff_ne, h1, h2, h4, h5]

theorem strEq_of_data (a b : String) (h : a.data = b.data) : a = b := by
  cases a
  cases b
  exact congrArg String.mk h

theorem str_append_assoc (a b c : String) : (a ++ b) ++ c = a ++ (b ++ c) :=
  strEq_of_data _ _ (by simp [strdata_append])

theorem containsSub_suffix (a p : String) : containsSub (a ++ p) p = true := by
  show containsList p.data (a ++ p).data = true
  rw [strdata_append]
  apply containsList_append_left
  exact containsList_self _

/-- C4 (counterexample): color values are inserted raw — the default
style attribute embeds a textColor containing `"` and `<` verbatim,
with no entity escaping. -/
theorem color_not_escaped :
    getTextStyleSvg TextStyle.none "a\"<b" "text-element" = "fill=\"a\"<b\""
    ∧ containsSub (getTextStyleSvg TextStyle.none "a\"<b" "text-element") "&lt;" = false
    ∧ containsSub (getTextStyleSvg TextStyle.none "a\"<b" "text-element") "&quot;" = false := by
  refine ⟨by with_unfolding_all rfl, ?_, ?_⟩ <;> with_unfolding_all decide

/-- C4 (amended): user-supplied *text* is escaped through `escapeXml`
for the five XML-significant characters before insertion — decoding
the escaped text recovers the original, the escaped text carries no raw
`<`, `>`, `"` or `'`, and the default-layout markup embeds exactly
`escapeXml(text)` as the text content.  Color values, by contrast, are
interpolated without escaping (see the counterexample). -/
theorem escapeXml_roundtrip (s : String) :
    xmlDecode (escapeXml s) = s
    ∧ ((escapeXml s).data.all fun c =>
        !(c == '<') && !(c == '>') && !(c == '"') && !(c == apos)) = true
    ∧ (∀ (catalog : List (String × String)) (d : DesignOptions) (scaled center : ℚ × ℚ),
        d.style = LayoutStyle.other →
        containsSub (getTextElements catalog d scaled center)
          (">" ++ escapeXml d.text ++ "</text>") = true) := by
  refine ⟨?_, escapeXml_no_raw s.data, ?_⟩
  · show String.mk (xmlDecodeList (escapeXmlList s.data)) = s
    rw [xmlDecodeList_escape]
  · intro catalog d scaled center hstyle
    have : getTextElements catalog d scaled center =
        ("<text x=\"" ++ jsNumStr center.1 ++ "\" y=\"" ++ jsNumStr (center.2 + scaled.2 / 2 + 60)
          ++ "\" text-anchor=\"middle\" " ++ commonTextPropsOf catalog d)
        ++ (">" ++ escapeXml d.text ++ "</text>") := by
      simp only [getTextElements, hstyle]
      apply strEq_of_data
      simp [strdata_append, List.append_assoc]
    rw [this]
    exact containsSub_suffix _ _

/-- Witness for the amended C4: round-trip at a concrete string with
`<`, `&`, `"`, and escaped insertion at a concrete flat-layout design. -/
theorem escapeXml_roundtrip_witness :
    xmlDecode (escapeXml "a<b&c\"d") = "a<b&c\"d"
    ∧ containsSub (getTextElements [] dOther (100, 100) (500, 500))
        (">" ++ escapeXml dOther.text ++ "</text>") = true :=
  ⟨(escapeXml_roundtrip "a<b&c\"d").1,
   (escapeXml_roundtrip "").2.2 [] dOther (100, 100) (500, 500) rfl⟩

/-- C6: the engraving artifact is invariant under the design's
configured `textColor` and `textStyle` (both are overridden to
`#000000` / `none` before the inner text-only render, whose resolved
attributes are exactly `fill="#000000"` with no style defs), and the
output always carries the saturate-0 color-matrix filter definition and
the `url(#monochrome)` filter reference on its image element. -/
theorem engraving_forces_black (catalog : List (String × String)) (d : DesignOptions)
    (dims : Nat × Nat) (env : FontFetchEnv) (lg : String) (c : String) (st : TextStyle)
    (h : d.logo = some lg) :
    generateEngravingSvg catalog { d with textColor := c, textStyle := st } dims env
      = generateEngravingSvg catalog d dims env
    ∧ getTextStyleSvg TextStyle.none "#000000" "text-element" = "fill=\"#000000\""
    ∧ (∀ g1 g2 : String, getTextStyleDefs TextStyle.none "#000000" g1 g2 "text-element" = "")
    ∧ ∃ out, generateEngravingSvg catalog d dims env = .ok out
        ∧ containsSub out "<feColorMatrix type=\"saturate\" values=\"0\" />" = true
        ∧ containsSub out "filter=\"url(#monochrome)\"" = true := by
  refine ⟨rfl, by with_unfolding_all rfl, fun g1 g2 => rfl, ?_⟩
  obtain ⟨Y, hY⟩ : ∃ Y, generateTextOnlySvg catalog
      { d with textColor := "#000000", textStyle := TextStyle.none } false dims env = .ok Y := by
    simp only [generateTextOnlySvg, h]
    by_cases htr : jsTrim d.text = ""
    · simp [htr]
    · simp [htr]
  rw [h] at hY
  simp only [generateEngravingSvg, h, hY]
  refine ⟨_, rfl, ?_, ?_⟩
  · unfold containsSub
    simp only [strdata_append, List.append_assoc]
    apply containsList_mono_right
    decide
  · unfold containsSub
    simp only [strdata_append, List.append_assoc]
    repeat apply containsList_append_left
    decide

/-- Witness for C6 at a concrete design: overriding color/style leaves
the engraving unchanged, and the concrete output colors its text
black. -/
theorem engraving_forces_black_witness :
    generateEngravingSvg [] { dShadow with textColor := "#ABCDEF", textStyle := TextStyle.glow }
        (200, 100) envDummy
      = generateEngravingSvg [] dShadow (200, 100) envDummy
    ∧ exceptContains (generateEngravingSvg [] dShadow (200, 100) envDummy) "fill=\"#000000\"" = true :=
  ⟨(engraving_forces_black [] dShadow (200, 100) envDummy "LOGO" "#ABCDEF" TextStyle.glow rfl).1,
   by with_unfolding_all decide⟩

theorem containsSub_here (a b p : String) (h : containsSub a p = true) :
    containsSub (a ++ b) p = true := by
  unfold containsSub at h ⊢
  rw [strdata_append]
  exact containsList_mono_right _ _ _ h

theorem containsSub_there (a b p : String) (h : containsSub b p = true) :
    containsSub (a ++ b) p = true := by
  unfold containsSub at h ⊢
  rw [strdata_append]
  exact containsList_append_left _ _ _ h

theorem containsSub_refl (p : String) : containsSub p p = true :=
  containsList_self _

theorem ceilHalf_eq (n : Nat) : ceilHalf n = (n + 1) / 2 := by
  unfold ceilHalf
  have h : (⌈(n : ℚ) / 2⌉ : ℤ) = ((n : ℤ) + 1) / 2 := by
    have h1 : (n : ℤ) ≤ 2 * (((n : ℤ) + 1) / 2) := by omega
    have h2 : 2 * (((n : ℤ) + 1) / 2) ≤ (n : ℤ) + 1 := by omega
    have h1q : (n : ℚ) ≤ 2 * ((((n : ℤ) + 1) / 2 : ℤ) : ℚ) := by exact_mod_cast h1
    have h2q : 2 * ((((n : ℤ) + 1) / 2 : ℤ) : ℚ) ≤ (n : ℚ) + 1 := by exact_mod_cast h2
    rw [Int.ceil_eq_iff]
    constructor
    · rw [lt_div_iff (by norm_num : (0 : ℚ) < 2)]
      linarith
    · rw [div_le_iff (by norm_num : (0 : ℚ) < 2)]
      linarith
  rw [h]
  omega

/-- C8: the word split used by the `full_circle` and `split` layouts
gives the first (top/left) half exactly the first `ceil(N/2)` of the
`N` whitespace-split words and the second (bottom/right) half the
remainder: `wordHalves` equals the take/drop at `(N+1)/2`, and the
generated markup binds the first half to the `#text-path-top` path
(resp. the right-aligned `text-anchor="end"` left element) and the
second half to `#text-path-bottom` (resp. `text-anchor="start"`). -/
theorem word_split_tiebreak (text : String) (catalog : List (String × String))
    (d : DesignOptions) (scaled center : ℚ × ℚ) :
    wordHalves text =
      (joinSpace ((jsSplitWs text).take (((jsSplitWs text).length + 1) / 2)),
       joinSpace ((jsSplitWs text).drop (((jsSplitWs text).length + 1) / 2)))
    ∧ (d.style = LayoutStyle.full_circle →
        containsSub (getTextElements catalog d scaled center)
          ("href=\"#text-path-top\" startOffset=\"50%\" text-anchor=\"middle\" "
            ++ commonTextPropsOf catalog d ++ ">" ++ escapeXml (wordHalves d.text).1
            ++ "</textPath>") = true
        ∧ containsSub (getTextElements catalog d scaled center)
          ("href=\"#text-path-bottom\" startOffset=\"50%\" text-anchor=\"middle\" "
            ++ commonTextPropsOf catalog d ++ ">" ++ escapeXml (wordHalves d.text).2
            ++ "</textPath>") = true)
    ∧ (d.style = LayoutStyle.split →
        containsSub (getTextElements catalog d scaled center)
          ("\" text-anchor=\"end\" dominant-baseline=\"middle\" "
            ++ commonTextPropsOf catalog d ++ ">" ++ escapeXml (wordHalves d.text).1
            ++ "</text>") = true
        ∧ containsSub (getTextElements catalog d scaled center)
          ("\" text-anchor=\"start\" dominant-baseline=\"middle\" "
            ++ commonTextPropsOf catalog d ++ ">" ++ escapeXml (wordHalves d.text).2
            ++ "</text>") = true) := by
  refine ⟨?_, ?_, ?_⟩
  · simp only [wordHalves, ceilHalf_eq]
  · intro hstyle
    simp only [getTextElements, hstyle]
    constructor
    · apply containsSub_here
      apply containsSub_here
      apply containsSub_here
      apply containsSub_there
      exact containsSub_refl _
    · apply containsSub_here
      apply containsSub_there
      exact containsSub_refl _
  · intro hstyle
    simp only [getTextElements, hstyle]
    constructor
    · apply containsSub_here
      apply containsSub_here
      apply containsSub_here
      apply containsSub_here
      apply containsSub_here
      apply containsSub_there
      exact containsSub_refl _
    · apply containsSub_there
      exact containsSub_refl _

/-- Witness for C8: `"A B C"` splits into `"A B"` / `"C"`, and the
first half lands on the top arc of the concrete design's markup. -/
theorem word_split_tiebreak_witness :
    wordHalves "A B C" = ("A B", "C")
    ∧ containsSub (getTextElements [] dAbc (100, 100) (500, 500))
        ("href=\"#text-path-top\" startOffset=\"50%\" text-anchor=\"middle\" fill=\"#00FF00\" font-family=\"'Impact', sans-serif\" font-size=\"50px\">A B</textPath>") = true := by
  constructor
  · rw [(word_split_tiebreak "A B C" [] dAbc (100, 100) (500, 500)).1]
    with_unfolding_all decide
  · have h := (word_split_tiebreak "A B C" [] dAbc (100, 100) (500, 500)).2.1 rfl
    with_unfolding_all exact h.1

theorem isPrefOf_stable (p l r : List Char) (h : p.length ≤ l.length) :
    isPrefOf p (l ++ r) = isPrefOf p l := by
  induction p generalizing l with
  | nil => simp [isPrefOf]
  | cons a as ih =>
    cases l with
    | nil => simp at h
    | cons b bs =>
      simp only [List.cons_append, isPrefOf]
      by_cases hab : a = b
      · simp only [hab, if_pos rfl]
        exact ih bs (by simpa using h)
      · simp [hab]

theorem countOcc_skip (p0 : Char) (pr a b : List Char) (ha : ∀ c ∈ a, c ≠ p0) :
    countOcc (p0 :: pr) (a ++ b) = countOcc (p0 :: pr) b := by
  induction a with
  | nil => rfl
  | cons c t ih =>
    have hc : c ≠ p0 := ha c (by simp)
    have ht : ∀ x ∈ t, x ≠ p0 := fun x hx => ha x (by simp [hx])
    simp only [List.cons_append, countOcc, List.append_eq]
    have hpf : isPrefOf (p0 :: pr) (c :: (t ++ b)) = false := by
      simp [isPrefOf, Ne.symm hc]
    simp only [hpf, if_false, Bool.false_eq_true, ih ht]
    simp

theorem countOcc_append_split (p0 : Char) (pr t R : List Char)
    (hcond : ∀ c ∈ t.drop (t.length - pr.length), c ≠ p0) :
    countOcc (p0 :: pr) (t ++ R) = countOcc (p0 :: pr) t + countOcc (p0 :: pr) R := by
  induction t with
  | nil => simp [countOcc]
  | cons c t' ih =>
    have hcond' : ∀ x ∈ t'.drop (t'.length - pr.length), x ≠ p0 := by
      intro x hx
      apply hcond
      rcases le_or_lt pr.length t'.length with hle | hlt
      · have he : (c :: t').length - pr.length = (t'.length - pr.length) + 1 := by
          simp only [List.length_cons]
          omega
        rw [he, List.drop_succ_cons]
        exact hx
      · have he : t'.length - pr.length = 0 := by omega
        rw [he] at hx
        have he2 : (c :: t').length - pr.length = 0 ∨ (c :: t').length - pr.length = 1 := by
          simp only [List.length_cons]
          omega
        rcases he2 with he2 | he2
        · rw [he2]
          simp only [List.drop_zero]
          exact List.mem_cons_of_mem _ hx
        · rw [he2]
          simpa using hx
    rcases lt_or_ge t'.length pr.length with hshort | hlong
    · have hc : c ≠ p0 := by
        apply hcond c
        have he : (c :: t').length - pr.length = 0 := by
          simp only [List.length_cons]
          omega
        rw [he]
        simp
      simp only [List.cons_append, countOcc, List.append_eq]
      have hpf1 : isPrefOf (p0 :: pr) (c :: (t' ++ R)) = false := by
        simp [isPrefOf, Ne.symm hc]
      have hpf2 : isPrefOf (p0 :: pr) (c :: t') = false := by
        simp [isPrefOf, Ne.symm hc]
      simp only [hpf1, hpf2, if_false, Bool.false_eq_true, ih hcond']
      simp [Nat.add_assoc]
    · have hpf := isPrefOf_stable (p0 :: pr) (c :: t') R
        (by simp only [List.length_cons]; omega)
      simp only [List.cons_append, countOcc, List.append_eq] at hpf ⊢
      simp only [hpf, ih hcond']
      simp [Nat.add_assoc]

theorem lt_not_digitChar (d : Nat) : digitChar d ≠ '<' := by
  unfold digitChar
  split_ifs <;> decide

theorem lt_not_in_natDigitsAux (fuel : Nat) : ∀ n, '<' ∉ natDigitsAux fuel n := by
  induction fuel with
  | zero => intro n; simp [natDigitsAux]
  | succ f ih =>
    intro n
    simp only [natDigitsAux]
    split
    · simp only [List.mem_singleton]
      exact fun h => lt_not_digitChar n h.symm
    · simp only [List.mem_append, List.mem_singleton]
      rintro (h | h)
      · exact ih _ h
      · exact lt_not_digitChar _ h.symm

theorem lt_not_in_fracDigits (fuel : Nat) : ∀ f : ℚ, '<' ∉ fracDigits fuel f := by
  induction fuel with
  | zero => intro f; simp [fracDigits]
  | succ k ih =>
    intro f
    simp only [fracDigits]
    split
    · simp
    · simp only [List.mem_cons]
      rintro (h | h)
      · exact lt_not_digitChar _ h.symm
      · exact ih _ h

theorem lt_not_in_jsNumStr (q : ℚ) : '<' ∉ (jsNumStr q).data := by
  unfold jsNumStr
  have hnd : ∀ n : Nat, '<' ∉ natDigits n := fun n => lt_not_in_natDigitsAux 30 n
  split_ifs <;>
    simp [strdata_append, List.mem_append, hnd, lt_not_in_fracDigits 20]

/-- C10: with a logo and empty / whitespace-only text, the inner
text-only document is the minimal canvas, which contains no `<defs>`;
`indexOf` returns `-1`, `substring(-1)` clamps to the whole string, and
only the inner `</svg>` is removed — so the engraving output embeds the
inner document's entire opening `<svg …>` tag and (for a logo free of
`<`) contains two `<svg` opening tags but a single `</svg>`. -/
theorem engraving_empty_text_unbalanced (catalog : List (String × String)) (d : DesignOptions)
    (dims : Nat × Nat) (env : FontFetchEnv) (lg : String)
    (h1 : d.logo = some lg) (h2 : jsTrim d.text = "") :
    jsIndexOf minimalCanvasSvg "<defs>" = -1
    ∧ jsSubstringFrom minimalCanvasSvg (-1) = minimalCanvasSvg
    ∧ jsReplaceFirst minimalCanvasSvg "</svg>" "" = innerOpenTag
    ∧ generateEngravingSvg catalog d dims env = .ok (engravingEmptyDoc lg dims)
    ∧ containsSub (engravingEmptyDoc lg dims) innerOpenTag = true
    ∧ ('<' ∉ lg.data →
        countOccStr (engravingEmptyDoc lg dims) "<svg" = 2
        ∧ countOccStr (engravingEmptyDoc lg dims) "</svg>" = 1) := by
  refine ⟨by with_unfolding_all rfl, by with_unfolding_all rfl, by with_unfolding_all rfl,
    ?_, ?_, ?_⟩
  · have hmini : generateTextOnlySvg catalog
        { d with textColor := "#000000", textStyle := TextStyle.none } false dims env
        = .ok minimalCanvasSvg := by
      simp only [generateTextOnlySvg]
      simp [h1, h2]
    rw [h1] at hmini
    simp only [generateEngravingSvg, h1, hmini]
    have hstrip : jsReplaceFirst
        (jsSubstringFrom minimalCanvasSvg (jsIndexOf minimalCanvasSvg "<defs>")) "</svg>" ""
        = innerOpenTag := by
      with_unfolding_all rfl
    rw [hstrip]
    rfl
  · unfold engravingEmptyDoc
    apply containsSub_here
    apply containsSub_here
    apply containsSub_here
    apply containsSub_here
    apply containsSub_here
    apply containsSub_here
    apply containsSub_here
    apply containsSub_here
    apply containsSub_here
    apply containsSub_here
    apply containsSub_here
    apply containsSub_there
    exact containsSub_refl _
  · intro hlg
    have hp : "<svg".data = '<' :: ['s', 'v', 'g'] := rfl
    have hp2 : "</svg>".data = '<' :: ['/', 's', 'v', 'g', '>'] := rfl
    constructor
    · unfold countOccStr engravingEmptyDoc
      rw [hp]
      simp only [strdata_append, List.append_assoc]
      rw [countOcc_append_split]
      rw [countOcc_append_split]
      rw [countOcc_append_split]
      rw [countOcc_skip]
      rw [countOcc_append_split]
      rw [countOcc_skip]
      rw [countOcc_append_split]
      rw [countOcc_skip]
      rw [countOcc_append_split]
      rw [countOcc_skip]
      rw [countOcc_append_split]
      rw [countOcc_skip]
      · decide
      all_goals first
        | decide
        | (intro c hc he; subst he; exact hlg hc)
        | (intro c hc he; subst he; exact lt_not_in_jsNumStr _ hc)
    · unfold countOccStr engravingEmptyDoc
      rw [hp2]
      simp only [strdata_append, List.append_assoc]
      rw [countOcc_append_split]
      rw [countOcc_append_split]
      rw [countOcc_append_split]
      rw [countOcc_skip]
      rw [countOcc_append_split]
      rw [countOcc_skip]
      rw [countOcc_append_split]
      rw [countOcc_skip]
      rw [countOcc_append_split]
      rw [countOcc_skip]
      rw [countOcc_append_split]
      rw [countOcc_skip]
      · decide
      all_goals first
        | decide
        | (intro c hc he; subst he; exact hlg hc)
        | (intro c hc he; subst he; exact lt_not_in_jsNumStr _ hc)

/-- Witness for C10 at a concrete blank-text design. -/
theorem engraving_empty_text_unbalanced_witness :
    generateEngravingSvg [] dBlank (40, 20) envDummy
      = .ok (engravingEmptyDoc "data:image/png;base64,AA" (40, 20))
    ∧ countOccStr (engravingEmptyDoc "data:image/png;base64,AA" (40, 20)) "<svg" = 2
    ∧ countOccStr (engravingEmptyDoc "data:image/png;base64,AA" (40, 20)) "</svg>" = 1 := by
  have h := engraving_empty_text_unbalanced [] dBlank (40, 20) envDummy
    "data:image/png;base64,AA" rfl (by with_unfolding_all rfl)
  exact ⟨h.2.2.2.1, (h.2.2.2.2.2 (by decide)).1, (h.2.2.2.2.2 (by decide)).2⟩
